import Mathlib

/-!
Shallow embedding of the InfiniGPT Matrix bot (src/infinigpt.py):
the per-room/per-sender history store, moderation gate, model routing,
and the command handlers, as pure state-passing functions.

Python dicts preserve insertion order, so maps are modelled as
association lists; external effects (the completion backend, display-name
lookup, outbound sends) are modelled as explicit inputs and outputs.
-/

namespace InfiniGPT

/-- A role-tagged chat message, as stored in `self.messages`. -/
structure Msg where
  role : String
  content : String
deriving DecidableEq

abbrev Conv := List Msg

/-- Insertion-ordered map lookup (Python `d[k]` / `k in d`). -/
def getKey {α : Type} : List (String × α) → String → Option α
  | [], _ => none
  | (k', v) :: rest, k => if k = k' then some v else getKey rest k

/-- Insertion-ordered map update (Python `d[k] = v`): overwrite in place
if the key is present, otherwise append at the end, matching dict
insertion order. -/
def setKey {α : Type} : List (String × α) → String → α → List (String × α)
  | [], k, v => [(k, v)]
  | (k', v') :: rest, k, v =>
      if k = k' then (k, v) :: rest else (k', v') :: setKey rest k v

/-- The configuration fields the handlers consult (class `Config`). -/
structure Config where
  personality : String
  admins : List String
  forbidden_words : List String
  default_model : String
  moderation_enabled : Bool
  moderation_strategy : String
deriving DecidableEq

/-- `self.prompt[0]` in `InfiniGPT.__init__`. -/
def prompt0 : String := "assume the personality of "

/-- `self.prompt[1]` in `InfiniGPT.__init__`. -/
def prompt1 : String := ".  roleplay and never break character. keep your responses relatively short."

/-- The system preamble seeded by `add_history` for a fresh sender:
`self.prompt[0] + self.config.personality + self.prompt[1]`. -/
def defaultPreamble (cfg : Config) : String :=
  prompt0 ++ cfg.personality ++ prompt1

/-- The mutable per-process state: `self.messages` and `self.room_models`. -/
structure BotState where
  messages : List (String × List (String × Conv))
  room_models : List (String × String)
deriving DecidableEq

/-- An outbound room message; `markdown` distinguishes
`send_markdown_message` from `send_message`. -/
structure Outbound where
  channel : String
  body : String
  markdown : Bool
deriving DecidableEq

/-- `self.messages[channel][sender]` when both keys are present. -/
def lookupConv (st : BotState) (channel sender : String) : Option Conv :=
  (getKey st.messages channel).bind (fun chMap => getKey chMap sender)

/-- The sender's conversation, defaulting to `[]` when absent. -/
def convOf (st : BotState) (channel sender : String) : Conv :=
  (lookupConv st channel sender).getD []

/-- Write the sender's conversation in place (creating the room map when
absent), as Python in-place list mutation does. -/
def setConv (st : BotState) (channel sender : String) (conv : Conv) : BotState :=
  let chMap := (getKey st.messages channel).getD []
  { st with messages := setKey st.messages channel (setKey chMap sender conv) }

/-- Python `a.isPrefixOf`-style containment: `needle in hay` on char lists. -/
def containsChars (needle : List Char) : List Char → Bool
  | [] => needle.isEmpty
  | c :: t => needle.isPrefixOf (c :: t) || containsChars needle t

/-- `InfiniGPT.moderate`: disabled configuration short-circuits to false;
strategy `forbidden_words` checks case-insensitive substring occurrence;
any other strategy logs a warning and returns false. -/
def moderate (cfg : Config) (message : String) : Bool :=
  if !cfg.moderation_enabled then false
  else if cfg.moderation_strategy = "forbidden_words" then
    cfg.forbidden_words.any (fun w => containsChars w.toLower.data message.toLower.data)
  else false

/-- `InfiniGPT.add_history`: lazily create the room map and seed a fresh
sender with the default system preamble plus the new message; otherwise
append the new message. No eviction happens here. -/
def add_history (cfg : Config) (role channel sender message : String)
    (st : BotState) : BotState :=
  let chMap := (getKey st.messages channel).getD []
  let newChMap :=
    match getKey chMap sender with
    | none =>
        setKey chMap sender
          [⟨"system", defaultPreamble cfg⟩, ⟨role, message⟩]
    | some conv => setKey chMap sender (conv ++ [⟨role, message⟩])
  { st with messages := setKey st.messages channel newChMap }

/-- Python `while`-free model of `str.strip` for a single char: drop the
maximal leading run of double quotes. -/
def dropQuoteRun : List Char → List Char
  | [] => []
  | c :: t => if c = '"' then dropQuoteRun t else c :: t

/-- Python `response_text.strip('"')`: removes ALL leading and ALL
trailing double-quote characters. -/
def pyStripQuotes (s : String) : String :=
  ⟨dropQuoteRun ((dropQuoteRun s.data.reverse).reverse)⟩

/-- Python f-string rendering of an `Optional[str]`. -/
def pyShowOpt : Option String → String
  | some s => s
  | none => "None"

/-- Outcome of the completion backend call
(`self.openai.chat.completions.create`), modelled as an input: the call
either yields a completion text or raises. -/
inductive BackendResult where
  | ok (text : String)
  | err
deriving DecidableEq

/-- `self.room_models.get(channel, self.default_model)` as used by
`respond` and the `.model` query. -/
def resolve_model (cfg : Config) (st : BotState) (channel : String) : String :=
  (getKey st.room_models channel).getD cfg.default_model

/-- `InfiniGPT.respond`: on backend failure the whole `try` body is
abandoned and a plain apology is sent with no state change. On success
the completion is quote-stripped, appended as an assistant message, sent
as markdown prefixed by the display name, and then the conversation is
windowed: when it exceeds 24 entries, `del conv[1:3]` removes the
entries at indices 1 and 2. -/
def respond (cfg : Config) (channel sender : String) (backend : BackendResult)
    (displayName : String → Option String) (sender2 : Option String)
    (st : BotState) : BotState × List Outbound :=
  match backend with
  | .err =>
      (st, [⟨channel, "An error occurred while generating a response. Please try again later.", false⟩])
  | .ok text =>
      let response_text := pyStripQuotes text
      let st2 := add_history cfg "assistant" channel sender response_text st
      let dn := pyShowOpt (displayName (sender2.getD sender))
      let out : Outbound := ⟨channel, dn ++ ":\n\n" ++ response_text, true⟩
      let conv := convOf st2 channel sender
      let st3 :=
        if conv.length > 24 then
          setConv st2 channel sender (conv.take 1 ++ conv.drop 3)
        else st2
      (st3, [out])

/-- `InfiniGPT.persona`: clear the conversation when the `(channel,
sender)` keys exist (Python catches the `KeyError` otherwise), then
`add_history` a system message wrapping the persona in the prompt
template. -/
def persona_op (cfg : Config) (channel sender personaText : String)
    (st : BotState) : BotState :=
  let st1 :=
    match lookupConv st channel sender with
    | some _ => setConv st channel sender []
    | none => st
  add_history cfg "system" channel sender (prompt0 ++ personaText ++ prompt1) st1

/-- `InfiniGPT.custom`: clear the conversation when present, then
`add_history` the raw prompt as a system message. -/
def custom_op (cfg : Config) (channel sender customPrompt : String)
    (st : BotState) : BotState :=
  let st1 :=
    match lookupConv st channel sender with
    | some _ => setConv st channel sender []
    | none => st
  add_history cfg "system" channel sender customPrompt st1

/-- Python `str.startswith`, on the underlying char lists. -/
def strStartsWith (s pre : String) : Bool := pre.data.isPrefixOf s.data

/-- Everything after the first space: Python `message.split(" ", 1)[1]`
for a message containing a space. -/
def afterFirstSpace : List Char → List Char
  | [] => []
  | c :: t => if c = ' ' then t else afterFirstSpace t

/-- `InfiniGPT._handle_stock_command`: when the room map exists, clear
the sender's conversation if present (leaving the key in place); when
the room map is absent, create it with an empty conversation for the
sender. Always acknowledge. -/
def handle_stock (channel sender sender_display : String) (st : BotState) :
    BotState × List Outbound :=
  let ack : Outbound := ⟨channel, "Stock settings applied for " ++ sender_display, false⟩
  match getKey st.messages channel with
  | some chMap =>
      let st2 :=
        match getKey chMap sender with
        | some _ => setConv st channel sender []
        | none => st
      (st2, [ack])
  | none => (setConv st channel sender [], [ack])

/-- `InfiniGPT._handle_ai_command`: moderate the text after the first
space; on rejection send a policy message, else append it as a user
message to the sender's conversation and respond there. -/
def handle_ai (cfg : Config) (channel sender sender_display message : String)
    (backend : BackendResult) (displayName : String → Option String)
    (st : BotState) : BotState × List Outbound :=
  let m : String := ⟨afterFirstSpace message.data⟩
  if moderate cfg m then
    (st, [⟨channel, sender_display ++ ": This message violates the usage policy and was not sent.", false⟩])
  else
    let st2 := add_history cfg "user" channel sender m st
    respond cfg channel sender backend displayName none st2

/-- One step of Python `s.split(" ", n)`: the chars before the first
space and the chars after it, or `none` when no space occurs. -/
def breakAtSpace : List Char → Option (List Char × List Char)
  | [] => none
  | c :: t =>
      if c = ' ' then some ([], t)
      else (breakAtSpace t).map (fun p => (c :: p.1, p.2))

/-- The display-name resolution loop of `_handle_x_command`: `name_id`
starts as the empty string and is overwritten (without breaking) by every
participant whose display name equals the target, so the LAST match
wins and a miss leaves the empty string. The `except` arm of the loop is
dead code because `display_name` catches its own exceptions. -/
def resolve_x_name (displayName : String → Option String)
    (users : List String) (disp_name : String) : String :=
  users.foldl (fun acc user => if displayName user = some disp_name then user else acc) ""

/-- `InfiniGPT._handle_x_command`: split the body into `.x`, a display
name and a text; do nothing unless both splits succeed and the room has
a message map; resolve the display name over the room's known senders,
moderate, then append as `user` under the resolved id and respond there
on the original sender's behalf. -/
def handle_x (cfg : Config) (channel sender sender_display message : String)
    (backend : BackendResult) (displayName : String → Option String)
    (st : BotState) : BotState × List Outbound :=
  match breakAtSpace message.data with
  | none => (st, [])
  | some (_, rest1) =>
    match breakAtSpace rest1 with
    | none => (st, [])
    | some (dn, rest2) =>
      let disp_name : String := ⟨dn⟩
      let m : String := ⟨rest2⟩
      match getKey st.messages channel with
      | none => (st, [])
      | some chMap =>
        let name_id := resolve_x_name displayName (chMap.map Prod.fst) disp_name
        if moderate cfg m then
          (st, [⟨channel, sender_display ++ ": This message violates the usage policy and was not sent.", false⟩])
        else
          let st2 := add_history cfg "user" channel name_id m st
          respond cfg channel name_id backend displayName (some sender) st2

/-- `InfiniGPT._handle_model_command`: a bare `.model`/`.models` reports
the resolved model; `.model <name>` from an admin sets the override to
the catalog id when the name is in `model_mapping`, otherwise a literal
`reset` argument sets the override to the default model, otherwise an
invalid-name message is sent; non-admin `.model <name>` does nothing. -/
def handle_model (cfg : Config) (model_mapping : List (String × String))
    (models : List String) (channel sender sender_display message : String)
    (st : BotState) : BotState × List Outbound :=
  if message = ".model" ∨ message = ".models" then
    let current := resolve_model cfg st channel
    (st, [⟨channel, "Current model for this room: " ++ current ++ "\nAvailable models: " ++ String.intercalate ", " models, false⟩])
  else if strStartsWith message ".model " ∧ sender ∈ cfg.admins then
    let model_name : String := ⟨afterFirstSpace message.data⟩
    match getKey model_mapping model_name with
    | some model_id =>
        ({ st with room_models := setKey st.room_models channel model_id },
         [⟨channel, "Model for this room set to " ++ model_name ++ " (" ++ model_id ++ ")", false⟩])
    | none =>
        if model_name = "reset" then
          ({ st with room_models := setKey st.room_models channel cfg.default_model },
           [⟨channel, "Model for this room reset to " ++ cfg.default_model, false⟩])
        else
          (st, [⟨channel, "Invalid model name. Try again.", false⟩])
  else (st, [])

/-! ### Map lemmas -/

theorem getKey_setKey_self {α : Type} (m : List (String × α)) (k : String) (v : α) :
    getKey (setKey m k v) k = some v := by
  induction m with
  | nil => simp [setKey, getKey]
  | cons hd tl ih =>
      obtain ⟨k', v'⟩ := hd
      by_cases h : k = k'
      · simp [setKey, h, getKey]
      · simp [setKey, h, getKey, ih]

theorem lookupConv_setConv (st : BotState) (channel sender : String) (conv : Conv) :
    lookupConv (setConv st channel sender conv) channel sender = some conv := by
  unfold setConv lookupConv
  simp [getKey_setKey_self]

/-- `add_history` writes exactly the seeded or extended conversation
under the `(channel, sender)` keys. -/
theorem lookupConv_add_history (cfg : Config) (role channel sender message : String)
    (st : BotState) :
    lookupConv (add_history cfg role channel sender message st) channel sender =
      some (match lookupConv st channel sender with
            | none => [⟨"system", defaultPreamble cfg⟩, ⟨role, message⟩]
            | some conv => conv ++ [⟨role, message⟩]) := by
  unfold add_history lookupConv
  cases hch : getKey st.messages channel with
  | none => simp [hch, getKey, getKey_setKey_self]
  | some chMap =>
      cases hs : getKey chMap sender with
      | none => simp [hch, hs, getKey_setKey_self]
      | some conv => simp [hch, hs, getKey_setKey_self]

theorem convOf_add_history_of_none (cfg : Config) (role channel sender message : String)
    (st : BotState) (h : lookupConv st channel sender = none) :
    convOf (add_history cfg role channel sender message st) channel sender =
      [⟨"system", defaultPreamble cfg⟩, ⟨role, message⟩] := by
  unfold convOf
  rw [lookupConv_add_history, h]
  rfl

theorem convOf_add_history_of_some (cfg : Config) (role channel sender message : String)
    (st : BotState) (c : Conv) (h : lookupConv st channel sender = some c) :
    convOf (add_history cfg role channel sender message st) channel sender =
      c ++ [⟨role, message⟩] := by
  unfold convOf
  rw [lookupConv_add_history, h]
  rfl

/-! ### Concrete fixtures for counterexamples and witnesses -/

def cexCfg : Config :=
  ⟨"a bot", ["@adm:x"], ["badword"], "AI.Models.waise-llama3", true, "forbidden_words"⟩

/-- A store holding one seeded conversation for `(!r:x, @s:x)`. -/
def cexState : BotState :=
  ⟨[("!r:x", [("@s:x", [⟨"system", defaultPreamble cexCfg⟩, ⟨"user", "q"⟩])])], []⟩

/-! ### C1 -/

/-- Claim C1 (amended): an append for a `(room, participant)` pair with
no conversation entry seeds the default system preamble, so the
conversation is then `[system preamble, message]`; but `.stock` clears
the conversation while leaving its key present, so for a pair that had a
conversation, the next `.ai` append after `.stock` does NOT reseed: the
conversation then consists of just the user message, whose role is not
`system`. -/
theorem C1_stock_then_append_does_not_reseed :
    (∀ (cfg : Config) (role channel sender message : String) (st : BotState),
        lookupConv st channel sender = none →
        convOf (add_history cfg role channel sender message st) channel sender =
          [⟨"system", defaultPreamble cfg⟩, ⟨role, message⟩])
    ∧ (∀ (cfg : Config) (channel sender disp message : String) (st : BotState) (c : Conv),
        lookupConv st channel sender = some c →
        convOf (add_history cfg "user" channel sender message
            (handle_stock channel sender disp st).1) channel sender =
          [⟨"user", message⟩]) := by
  constructor
  · intro cfg role channel sender message st h
    exact convOf_add_history_of_none cfg role channel sender message st h
  · intro cfg channel sender disp message st c h
    unfold lookupConv at h
    cases hch : getKey st.messages channel with
    | none => rw [hch] at h; simp at h
    | some chMap =>
        rw [hch] at h
        simp only [Option.some_bind] at h
        have hst : (handle_stock channel sender disp st).1 = setConv st channel sender [] := by
          unfold handle_stock
          rw [hch]
          dsimp only
          rw [h]
        rw [hst]
        have h2 : lookupConv (setConv st channel sender []) channel sender = some [] :=
          lookupConv_setConv st channel sender []
        rw [convOf_add_history_of_some cfg "user" channel sender message _ [] h2]
        rfl

/-- Claim C1 counterexample: for a sender with a seeded conversation,
`.stock` followed by an `.ai`-style user append yields a conversation
whose first element's role is `user`, not `system`. -/
theorem C1_counterexample :
    (convOf (add_history cexCfg "user" "!r:x" "@s:x" "hi"
        (handle_stock "!r:x" "@s:x" "S" cexState).1) "!r:x" "@s:x").head?.map Msg.role
      ≠ some "system" := by decide

/-- Witness for C1 at concrete inputs. -/
theorem C1_witness :
    (lookupConv ⟨[], []⟩ "!r:x" "@s:x" = none
     ∧ convOf (add_history cexCfg "user" "!r:x" "@s:x" "hi" ⟨[], []⟩) "!r:x" "@s:x" =
         [⟨"system", defaultPreamble cexCfg⟩, ⟨"user", "hi"⟩])
    ∧ (lookupConv cexState "!r:x" "@s:x" = some [⟨"system", defaultPreamble cexCfg⟩, ⟨"user", "q"⟩]
       ∧ convOf (add_history cexCfg "user" "!r:x" "@s:x" "hi"
            (handle_stock "!r:x" "@s:x" "S" cexState).1) "!r:x" "@s:x" = [⟨"user", "hi"⟩]) :=
  ⟨⟨by decide,
    C1_stock_then_append_does_not_reseed.1 cexCfg "user" "!r:x" "@s:x" "hi" ⟨[], []⟩ (by decide)⟩,
   ⟨by decide,
    C1_stock_then_append_does_not_reseed.2 cexCfg "!r:x" "@s:x" "S" "hi" cexState
      [⟨"system", defaultPreamble cexCfg⟩, ⟨"user", "q"⟩] (by decide)⟩⟩

/-! ### C2 -/

/-- The windowing step of `respond`: `del conv[1:3]` once the
conversation exceeds 24 entries. -/
def windowed (c : Conv) : Conv :=
  if c.length > 24 then c.take 1 ++ c.drop 3 else c

def conv24 : Conv := List.replicate 24 ⟨"user", "x"⟩

def st24 : BotState := ⟨[("!r:x", [("@s:x", conv24)])], []⟩

/-- Claim C2 (amended): the 24-entry window is enforced only inside the
response step, after the assistant-message append: when the appended
conversation exceeds 24 entries, exactly the entries at indices 1 and 2
are removed and the relative order of the rest is preserved (the result
is a sublist), so a conversation of at most 25 entries before the
response ends with at most 24. A lone user-message append performs no
eviction and can leave 25 entries. -/
theorem C2_window_eviction (cfg : Config) (channel sender text : String)
    (f : String → Option String) (s2 : Option String) (st : BotState) (c : Conv)
    (hc : lookupConv st channel sender = some c) (hlen : c.length ≤ 25) :
    convOf (respond cfg channel sender (BackendResult.ok text) f s2 st).1 channel sender
      = windowed (c ++ [⟨"assistant", pyStripQuotes text⟩])
    ∧ (windowed (c ++ [⟨"assistant", pyStripQuotes text⟩])).length ≤ 24
    ∧ List.Sublist (windowed (c ++ [⟨"assistant", pyStripQuotes text⟩]))
        (c ++ [⟨"assistant", pyStripQuotes text⟩]) := by
  have hconv : convOf (add_history cfg "assistant" channel sender (pyStripQuotes text) st)
      channel sender = c ++ [⟨"assistant", pyStripQuotes text⟩] :=
    convOf_add_history_of_some cfg "assistant" channel sender (pyStripQuotes text) st c hc
  refine ⟨?_, ?_, ?_⟩
  · unfold respond
    dsimp only
    rw [hconv]
    unfold windowed
    by_cases h24 : (c ++ [Msg.mk "assistant" (pyStripQuotes text)]).length > 24
    · rw [if_pos h24, if_pos h24]
      unfold convOf
      rw [lookupConv_setConv]
      rfl
    · rw [if_neg h24, if_neg h24]
      exact hconv
  · unfold windowed
    by_cases h24 : (c ++ [Msg.mk "assistant" (pyStripQuotes text)]).length > 24
    · rw [if_pos h24]
      have hX : (c ++ [Msg.mk "assistant" (pyStripQuotes text)]).length = c.length + 1 := by
        simp
      rw [List.length_append, List.length_take, List.length_drop, hX]
      rw [hX] at h24
      have hmin : min 1 (c.length + 1) = 1 := Nat.min_eq_left (by omega)
      rw [hmin]
      omega
    · rw [if_neg h24]
      omega
  · unfold windowed
    by_cases h24 : (c ++ [Msg.mk "assistant" (pyStripQuotes text)]).length > 24
    · rw [if_pos h24]
      conv_rhs => rw [← List.take_append_drop 1 (c ++ [Msg.mk "assistant" (pyStripQuotes text)])]
      apply List.Sublist.append_left
      have h3 : (c ++ [Msg.mk "assistant" (pyStripQuotes text)]).drop 3 =
          ((c ++ [Msg.mk "assistant" (pyStripQuotes text)]).drop 1).drop 2 := by
        rw [List.drop_drop]
      rw [h3]
      exact List.drop_sublist 2 _
    · rw [if_neg h24]

/-- Claim C2 counterexample: appending a user message to a 24-entry
conversation (as the `.ai` handler does before responding) leaves 25
entries, exceeding the claimed bound. -/
theorem C2_counterexample :
    (convOf (add_history cexCfg "user" "!r:x" "@s:x" "hi" st24) "!r:x" "@s:x").length > 24 := by
  decide

/-- Witness for C2 at concrete inputs. -/
theorem C2_witness :
    lookupConv st24 "!r:x" "@s:x" = some conv24
    ∧ conv24.length ≤ 25
    ∧ (convOf (respond cexCfg "!r:x" "@s:x" (BackendResult.ok "ok")
        (fun _ => none) none st24).1 "!r:x" "@s:x").length ≤ 24 :=
  ⟨by decide, by decide, by
    have h := C2_window_eviction cexCfg "!r:x" "@s:x" "ok" (fun _ => none) none st24 conv24
      (by decide) (by decide)
    rw [h.1]
    exact h.2.1⟩

/-! ### C3 -/

/-- Claim C3 (amended): when the `(room, participant)` pair already has
a conversation, `.persona`'s operation leaves exactly one system message
built from the persona text and `.custom`'s operation leaves exactly the
raw prompt as a single verbatim system message; but for a pair with NO
pre-existing conversation, `add_history` first seeds the default persona
preamble, so the result is two messages: the default system preamble
followed by the requested system message. -/
theorem C3_persona_custom_reseed (cfg : Config) (channel sender t : String) (st : BotState) :
    (∀ c, lookupConv st channel sender = some c →
       convOf (persona_op cfg channel sender t st) channel sender =
         [⟨"system", prompt0 ++ t ++ prompt1⟩]
       ∧ convOf (custom_op cfg channel sender t st) channel sender = [⟨"system", t⟩])
    ∧ (lookupConv st channel sender = none →
       convOf (persona_op cfg channel sender t st) channel sender =
         [⟨"system", defaultPreamble cfg⟩, ⟨"system", prompt0 ++ t ++ prompt1⟩]
       ∧ convOf (custom_op cfg channel sender t st) channel sender =
         [⟨"system", defaultPreamble cfg⟩, ⟨"system", t⟩]) := by
  constructor
  · intro c hc
    have hclear : lookupConv (setConv st channel sender []) channel sender = some [] :=
      lookupConv_setConv st channel sender []
    constructor
    · unfold persona_op
      rw [hc]
      dsimp only
      rw [convOf_add_history_of_some cfg "system" channel sender _ _ [] hclear]
      rfl
    · unfold custom_op
      rw [hc]
      dsimp only
      rw [convOf_add_history_of_some cfg "system" channel sender _ _ [] hclear]
      rfl
  · intro hc
    constructor
    · unfold persona_op
      rw [hc]
      dsimp only
      exact convOf_add_history_of_none cfg "system" channel sender _ st hc
    · unfold custom_op
      rw [hc]
      dsimp only
      exact convOf_add_history_of_none cfg "system" channel sender _ st hc

/-- Claim C3 counterexample: for a pair with no pre-existing
conversation, the `.custom` operation leaves TWO messages (the default
preamble plus the raw prompt), not a single system message. -/
theorem C3_counterexample :
    (convOf (custom_op cexCfg "!r2:x" "@s2:x" "xyz" cexState) "!r2:x" "@s2:x").length ≠ 1 := by
  decide

/-- Witness for C3 at concrete inputs. -/
theorem C3_witness :
    (lookupConv cexState "!r:x" "@s:x" = some [⟨"system", defaultPreamble cexCfg⟩, ⟨"user", "q"⟩]
     ∧ convOf (custom_op cexCfg "!r:x" "@s:x" "xyz" cexState) "!r:x" "@s:x" = [⟨"system", "xyz"⟩])
    ∧ (lookupConv cexState "!r2:x" "@s2:x" = none
       ∧ convOf (persona_op cexCfg "!r2:x" "@s2:x" "pp" cexState) "!r2:x" "@s2:x" =
           [⟨"system", defaultPreamble cexCfg⟩, ⟨"system", prompt0 ++ "pp" ++ prompt1⟩]) :=
  ⟨⟨by decide,
    ((C3_persona_custom_reseed cexCfg "!r:x" "@s:x" "xyz" cexState).1
      [⟨"system", defaultPreamble cexCfg⟩, ⟨"user", "q"⟩] (by decide)).2⟩,
   ⟨by decide,
    ((C3_persona_custom_reseed cexCfg "!r2:x" "@s2:x" "pp" cexState).2 (by decide)).1⟩⟩

/-! ### C4 -/

theorem resolve_fold_no_match (f : String → Option String) (d : String)
    (users : List String) (acc : String) (h : ∀ u ∈ users, f u ≠ some d) :
    users.foldl (fun acc user => if f user = some d then user else acc) acc = acc := by
  induction users generalizing acc with
  | nil => rfl
  | cons hd tl ih =>
      rw [List.foldl_cons]
      rw [if_neg (h hd (List.mem_cons_self hd tl))]
      exact ih acc (fun u hu => h u (List.mem_cons_of_mem hd hu))

def cexDisplay : String → Option String :=
  fun u => if u = "@a:x" ∨ u = "@b:x" then some "Bob" else none

/-- Claim C4 (amended): the `.x` display-name resolution loop carries no
break and initializes the result to the empty string, so the LAST
participant whose display name matches wins, and when no participant
matches, the empty string — not the literal display-name text — is used
as the synthetic participant id. -/
theorem C4_x_resolution (f : String → Option String) (d : String) :
    (∀ users : List String, (∀ u ∈ users, f u ≠ some d) → resolve_x_name f users d = "")
    ∧ (∀ (l1 l2 : List String) (u : String), f u = some d → (∀ v ∈ l2, f v ≠ some d) →
        resolve_x_name f (l1 ++ u :: l2) d = u) := by
  constructor
  · intro users h
    exact resolve_fold_no_match f d users "" h
  · intro l1 l2 u hu h2
    unfold resolve_x_name
    rw [List.foldl_append, List.foldl_cons, if_pos hu]
    exact resolve_fold_no_match f d l2 u h2

/-- Claim C4 counterexample: with two room participants both displaying
as `Bob`, the second (last) is resolved, not the first; and an unmatched
display name resolves to the empty string, not to itself. -/
theorem C4_counterexample :
    resolve_x_name cexDisplay ["@a:x", "@b:x"] "Bob" ≠ "@a:x"
    ∧ resolve_x_name cexDisplay ["@a:x", "@b:x"] "Carol" ≠ "Carol" := by
  decide

/-- Witness for C4 at concrete inputs. -/
theorem C4_witness :
    resolve_x_name cexDisplay (["@a:x"] ++ "@b:x" :: ([] : List String)) "Bob" = "@b:x" :=
  (C4_x_resolution cexDisplay "Bob").2 ["@a:x"] [] "@b:x" (by decide) (by simp)

/-! ### C5, C9, C10: the model command -/

/-- Claim C5 (amended): an admin-issued `.model reset` (with no catalog
model literally named `reset`) does not remove the room's override
entry: it SETS the override to the process default model id, so the
entry remains present and model resolution thereafter yields the
process-wide default. -/
theorem C5_model_reset (cfg : Config) (model_mapping : List (String × String))
    (models : List String) (channel sender disp : String) (st : BotState)
    (hadm : sender ∈ cfg.admins) (hres : getKey model_mapping "reset" = none) :
    getKey (handle_model cfg model_mapping models channel sender disp
        ".model reset" st).1.room_models channel = some cfg.default_model
    ∧ resolve_model cfg (handle_model cfg model_mapping models channel sender disp
        ".model reset" st).1 channel = cfg.default_model := by
  have hname : (⟨afterFirstSpace ".model reset".data⟩ : String) = "reset" := by decide
  unfold handle_model
  rw [if_neg (by decide : ¬((".model reset" : String) = ".model"
        ∨ (".model reset" : String) = ".models"))]
  rw [if_pos ⟨by decide, hadm⟩]
  dsimp only
  rw [hname, hres]
  dsimp only
  rw [if_pos rfl]
  refine ⟨getKey_setKey_self _ _ _, ?_⟩
  unfold resolve_model
  rw [getKey_setKey_self]
  rfl

/-- Claim C5 counterexample: after an admin `.model reset`, the override
mapping still contains an entry for the room (set to the default model),
contradicting the claimed removal. -/
theorem C5_counterexample :
    getKey (handle_model cexCfg [("gpt", "id1")] ["gpt"] "!r:x" "@adm:x" "A"
        ".model reset" ⟨[], [("!r:x", "m1")]⟩).1.room_models "!r:x" ≠ none := by
  decide

/-- Witness for C5 at concrete inputs. -/
theorem C5_witness :
    getKey (handle_model cexCfg [("gpt", "id1")] ["gpt"] "!r:x" "@adm:x" "A"
        ".model reset" ⟨[], []⟩).1.room_models "!r:x" = some cexCfg.default_model
    ∧ resolve_model cexCfg (handle_model cexCfg [("gpt", "id1")] ["gpt"] "!r:x" "@adm:x" "A"
        ".model reset" ⟨[], []⟩).1 "!r:x" = cexCfg.default_model :=
  C5_model_reset cexCfg [("gpt", "id1")] ["gpt"] "!r:x" "@adm:x" "A" ⟨[], []⟩
    (by decide) (by decide)

/-- Claim C9 (confirmed): a `.model <name>` command with an argument
from a sender outside the admin list changes no state and sends no
outbound message: the handler returns the state unchanged and an empty
output list. -/
theorem C9_nonadmin_model_noop (cfg : Config) (model_mapping : List (String × String))
    (models : List String) (channel sender disp message : String) (st : BotState)
    (hadm : sender ∉ cfg.admins) (hmsg : strStartsWith message ".model " = true) :
    handle_model cfg model_mapping models channel sender disp message st = (st, []) := by
  unfold handle_model
  have h1 : ¬(message = ".model" ∨ message = ".models") := by
    rintro (rfl | rfl)
    · exact absurd hmsg (by decide)
    · exact absurd hmsg (by decide)
  rw [if_neg h1]
  rw [if_neg (fun h => hadm h.2)]

/-- Witness for C9 at concrete inputs. -/
theorem C9_witness :
    handle_model cexCfg [("gpt", "id1")] ["gpt"] "!r:x" "@x:x" "D" ".model gpt" cexState =
      (cexState, []) :=
  C9_nonadmin_model_noop cexCfg [("gpt", "id1")] ["gpt"] "!r:x" "@x:x" "D" ".model gpt"
    cexState (by decide) (by decide)

/-- Claim C10 (confirmed): when the catalog's name-to-id mapping has an
entry literally named `reset`, an admin `.model reset` takes the
catalog-membership branch first and sets the room override to that
entry's backend id instead of clearing anything. -/
theorem C10_reset_in_catalog (cfg : Config) (model_mapping : List (String × String))
    (models : List String) (channel sender disp : String) (st : BotState) (mid : String)
    (hadm : sender ∈ cfg.admins) (hres : getKey model_mapping "reset" = some mid) :
    getKey (handle_model cfg model_mapping models channel sender disp
        ".model reset" st).1.room_models channel = some mid
    ∧ (handle_model cfg model_mapping models channel sender disp ".model reset" st).2 =
        [⟨channel, "Model for this room set to " ++ "reset" ++ " (" ++ mid ++ ")", false⟩] := by
  have hname : (⟨afterFirstSpace ".model reset".data⟩ : String) = "reset" := by decide
  unfold handle_model
  rw [if_neg (by decide : ¬((".model reset" : String) = ".model"
        ∨ (".model reset" : String) = ".models"))]
  rw [if_pos ⟨by decide, hadm⟩]
  dsimp only
  rw [hname, hres]
  exact ⟨getKey_setKey_self _ _ _, rfl⟩

/-- Witness for C10 at concrete inputs. -/
theorem C10_witness :
    getKey (handle_model cexCfg [("reset", "backend-rid")] ["reset"] "!r:x" "@adm:x" "A"
        ".model reset" ⟨[], []⟩).1.room_models "!r:x" = some "backend-rid"
    ∧ (handle_model cexCfg [("reset", "backend-rid")] ["reset"] "!r:x" "@adm:x" "A"
        ".model reset" ⟨[], []⟩).2 =
        [⟨"!r:x", "Model for this room set to " ++ "reset" ++ " (" ++ "backend-rid" ++ ")", false⟩] :=
  C10_reset_in_catalog cexCfg [("reset", "backend-rid")] ["reset"] "!r:x" "@adm:x" "A"
    ⟨[], []⟩ "backend-rid" (by decide) (by decide)

/-! ### C6 -/

theorem dropQuoteRun_spec (cs : List Char) :
    ∃ n, cs = List.replicate n '"' ++ dropQuoteRun cs
      ∧ (dropQuoteRun cs).head? ≠ some '"' := by
  induction cs with
  | nil => exact ⟨0, rfl, by simp [dropQuoteRun]⟩
  | cons c t ih =>
      obtain ⟨n, hn, hh⟩ := ih
      by_cases h : c = '"'
      · subst h
        refine ⟨n + 1, ?_, ?_⟩
        · rw [List.replicate_succ, List.cons_append]
          have hd : dropQuoteRun ('"' :: t) = dropQuoteRun t := by
            simp [dropQuoteRun]
          rw [hd, ← hn]
        · have hd : dropQuoteRun ('"' :: t) = dropQuoteRun t := by
            simp [dropQuoteRun]
          rw [hd]
          exact hh
      · have hd : dropQuoteRun (c :: t) = c :: t := by
          simp [dropQuoteRun, h]
        refine ⟨0, by rw [hd]; rfl, ?_⟩
        rw [hd]
        simp only [List.head?_cons, ne_eq, Option.some.injEq]
        exact h

/-- Claim C6 (amended): the quote normalization removes the MAXIMAL
leading and trailing runs of double-quote characters, not at most one on
each side: the input decomposes as some run of quotes, then the result
(which neither starts nor ends with a quote), then another run of
quotes; all interior characters are preserved in order. -/
theorem C6_strip_all_quotes (s : String) :
    ∃ a b : Nat,
      s.data = List.replicate a '"' ++ (pyStripQuotes s).data ++ List.replicate b '"'
      ∧ (pyStripQuotes s).data.head? ≠ some '"'
      ∧ (pyStripQuotes s).data.getLast? ≠ some '"' := by
  obtain ⟨b, hb, hbh⟩ := dropQuoteRun_spec s.data.reverse
  obtain ⟨a, ha, hah⟩ := dropQuoteRun_spec (dropQuoteRun s.data.reverse).reverse
  have hdata : (pyStripQuotes s).data =
      dropQuoteRun (dropQuoteRun s.data.reverse).reverse := rfl
  refine ⟨a, b, ?_, ?_, ?_⟩
  · have h2 := congrArg List.reverse hb
    rw [List.reverse_reverse, List.reverse_append, List.reverse_replicate] at h2
    rw [h2, ha, hdata, List.append_assoc]
  · rw [hdata]
    exact hah
  · rw [hdata]
    intro hcontra
    have hne : (dropQuoteRun (dropQuoteRun s.data.reverse).reverse).reverse ≠ [] := by
      intro hnil
      rw [List.reverse_eq_nil_iff] at hnil
      rw [hnil] at hcontra
      simp at hcontra
    obtain ⟨y, ys, hys⟩ := List.exists_cons_of_ne_nil hne
    have hrev : (dropQuoteRun (dropQuoteRun s.data.reverse).reverse).reverse.head? =
        some '"' := by
      rw [List.head?_reverse]
      exact hcontra
    apply hbh
    have h3 := congrArg List.reverse ha
    rw [List.reverse_reverse, List.reverse_append, List.reverse_replicate] at h3
    rw [h3, hys, List.cons_append, List.head?_cons]
    rw [hys, List.head?_cons] at hrev
    exact hrev

/-- Claim C6 counterexample: on a completion wrapped in two quotes on
each side, the code strips all four, while the claim predicts that one
quote on each side survives. -/
theorem C6_counterexample :
    pyStripQuotes "\"\"hi\"\"" = "hi" ∧ pyStripQuotes "\"\"hi\"\"" ≠ "\"hi\"" := by
  decide

/-! ### C7 -/

theorem isPrefixOf_true_iff (n h : List Char) :
    n.isPrefixOf h = true ↔ ∃ post, h = n ++ post := by
  induction n generalizing h with
  | nil => simp [List.isPrefixOf]
  | cons a as ih =>
      cases h with
      | nil => simp [List.isPrefixOf]
      | cons b bs =>
          rw [List.isPrefixOf, Bool.and_eq_true, beq_iff_eq, ih]
          constructor
          · rintro ⟨rfl, post, rfl⟩
            exact ⟨post, rfl⟩
          · rintro ⟨post, hpost⟩
            injection hpost with h1 h2
            exact ⟨h1.symm, post, h2⟩

theorem containsChars_true_iff (n h : List Char) :
    containsChars n h = true ↔ ∃ s1 s2, h = s1 ++ n ++ s2 := by
  induction h with
  | nil =>
      rw [containsChars, List.isEmpty_iff]
      constructor
      · rintro rfl
        exact ⟨[], [], rfl⟩
      · rintro ⟨s1, s2, hs⟩
        rcases List.append_eq_nil.mp hs.symm with ⟨h1, h2⟩
        exact (List.append_eq_nil.mp h1).2
  | cons c t ih =>
      rw [containsChars, Bool.or_eq_true, isPrefixOf_true_iff, ih]
      constructor
      · rintro (⟨post, hp⟩ | ⟨s1, s2, hs⟩)
        · exact ⟨[], post, by simpa using hp⟩
        · exact ⟨c :: s1, s2, by rw [hs]; rfl⟩
      · rintro ⟨s1, s2, hs⟩
        cases s1 with
        | nil =>
            left
            exact ⟨s2, by simpa using hs⟩
        | cons x xs =>
            right
            rw [List.cons_append, List.cons_append] at hs
            injection hs with h1 h2
            exact ⟨xs, s2, h2⟩

/-- Claim C7 (confirmed): the moderation gate returns true exactly when
moderation is enabled, the configured strategy is `forbidden_words`, and
some forbidden term occurs case-insensitively (both sides lowercased) as
a contiguous substring of the text; a disabled configuration or an
unknown strategy yields false. -/
theorem C7_moderate_iff (cfg : Config) (message : String) :
    moderate cfg message = true ↔
      cfg.moderation_enabled = true
      ∧ cfg.moderation_strategy = "forbidden_words"
      ∧ ∃ w ∈ cfg.forbidden_words, ∃ s1 s2,
          message.toLower.data = s1 ++ w.toLower.data ++ s2 := by
  unfold moderate
  by_cases he : cfg.moderation_enabled = true
  · by_cases hs : cfg.moderation_strategy = "forbidden_words"
    · simp [he, hs, List.any_eq_true, containsChars_true_iff]
    · simp [he, hs]
  · have he2 : cfg.moderation_enabled = false := by
      cases h2 : cfg.moderation_enabled
      · rfl
      · exact absurd h2 he
    simp [he2]

/-! ### C8 -/

/-- Claim C8 (confirmed): when the backend completion call fails, the
response step sends exactly one plain generic apology message to the
room and returns the state unchanged — in particular no assistant
message is appended to any conversation. -/
theorem C8_backend_failure (cfg : Config) (channel sender : String)
    (f : String → Option String) (s2 : Option String) (st : BotState) :
    respond cfg channel sender BackendResult.err f s2 st =
      (st, [⟨channel, "An error occurred while generating a response. Please try again later.", false⟩]) :=
  rfl

end InfiniGPT
